import Mathlib

/-!
Verification of the audio-bridging core of the realtime Twilio voice-agent
repository (files `cli/test1.py`, `cli/demo.py`, `twilio/twilio_handler.py`).

The Python code is shallowly embedded as executable Lean functions:

* byte strings are `List Nat` (each element a byte value 0–255);
* 16-bit linear PCM buffers are `List Int`, one entry per sample (the Python
  code manipulates them as byte strings of 2-byte little-endian samples, so a
  buffer of `n` samples is `2 * n` bytes; all byte counts in the source are
  even multiples of the sample width, making the representation lossless);
* base64 text is `String`;
* the stdlib `audioop` routines used by the source (`ulaw2lin`, `lin2ulaw`,
  `ratecv`, `max`) are translated from CPython `Modules/audioop.c`; `ratecv`
  performs its interpolation in C doubles, but for the rates used here every
  intermediate value is an integer below `2^53` divided by the reduced output
  rate, and the final `(int)` cast truncates toward zero, so integer
  truncating division (`Int.tdiv`) models it exactly;
* Python `base64.b64encode` / `b64decode` are modeled directly (the decoder,
  like CPython's `binascii.a2b_base64` in its default non-strict mode, first
  discards characters outside the base64 alphabet and then fails when the
  remaining characters do not form whole groups with well-placed padding).
-/

namespace RealtimeTwilio

/-! ### Base64 (Python `base64.b64encode` / `base64.b64decode`) -/

/-- Standard base64 alphabet, in order. -/
def b64chars : List Char :=
  "ABCDEFGHIJKLMNOPQRSTUVWXYZabcdefghijklmnopqrstuvwxyz0123456789+/".data

/-- Index of a character in a character list. -/
def charIndex : List Char → Char → Option Nat
  | [], _ => none
  | c :: cs, d => if c = d then some 0 else (charIndex cs d).map (· + 1)

/-- Value of a base64 alphabet character, `none` for non-alphabet characters. -/
def b64val (c : Char) : Option Nat := charIndex b64chars c

/-- Whether a character belongs to the base64 alphabet. -/
def isB64Char (c : Char) : Bool := (b64val c).isSome

/-- Base64-encode a byte string (characters of the resulting text). -/
def b64encodeBytes : List Nat → List Char
  | [] => []
  | [x] => [b64chars.getD (x / 4) 'A', b64chars.getD (x % 4 * 16) 'A', '=', '=']
  | [x, y] => [b64chars.getD (x / 4) 'A', b64chars.getD (x % 4 * 16 + y / 16) 'A',
      b64chars.getD (y % 16 * 4) 'A', '=']
  | x :: y :: z :: rest =>
      b64chars.getD (x / 4) 'A' :: b64chars.getD (x % 4 * 16 + y / 16) 'A' ::
        b64chars.getD (y % 16 * 4 + z / 64) 'A' :: b64chars.getD (z % 64) 'A' ::
        b64encodeBytes rest

/-- Python `base64.b64encode(..).decode("ascii")`. -/
def b64encode (l : List Nat) : String := String.mk (b64encodeBytes l)

/-- Decode whole base64 groups; `none` models a raised `binascii.Error`
(incorrect padding / leftover characters). -/
def b64decodeGroups : List Char → Option (List Nat)
  | [] => some []
  | a :: b :: c :: d :: rest =>
      match b64val a, b64val b with
      | some va, some vb =>
          if c = '=' then
            if d = '=' ∧ rest = [] then some [va * 4 + vb / 16] else none
          else
            match b64val c with
            | some vc =>
                if d = '=' then
                  if rest = [] then some [va * 4 + vb / 16, vb % 16 * 16 + vc / 4]
                  else none
                else
                  match b64val d with
                  | some vd =>
                      (b64decodeGroups rest).map
                        (fun tl => (va * 4 + vb / 16) :: (vb % 16 * 16 + vc / 4) ::
                          (vc % 4 * 64 + vd) :: tl)
                  | none => none
            | none => none
      | _, _ => none
  | _ => none

/-- Python `base64.b64decode`: drop characters outside the alphabet (default
non-validating mode), then decode; `none` models a raised `binascii.Error`. -/
def b64decode (s : String) : Option (List Nat) :=
  b64decodeGroups (s.data.filter (fun c => isB64Char c || c = '='))

/-! ### µ-law codec (CPython `audioop.lin2ulaw` / `audioop.ulaw2lin`) -/

/-- Segment end table `seg_uend` from `audioop.c`. -/
def seg_uend : List Int := [0x3F, 0x7F, 0xFF, 0x1FF, 0x3FF, 0x7FF, 0xFFF, 0x1FFF]

/-- The `search` helper from `audioop.c`: index of the first table entry that is
at least `val`, or the table size when every entry is smaller. -/
def seg_search (val : Int) : List Int → Nat
  | [] => 0
  | t :: ts => if val ≤ t then 0 else seg_search val ts + 1

/-- The `st_14linear2ulaw` encoder from `audioop.c` (14-bit linear to µ-law;
BIAS = 0x84 so the added bias is 0x84 >> 2 = 33, CLIP = 8159). -/
def st_14linear2ulaw (pcm_val : Int) : Nat :=
  let mask : Nat := if pcm_val < 0 then 0x7F else 0xFF
  let m : Int := if pcm_val < 0 then -pcm_val else pcm_val
  let m : Int := if m > 8159 then 8159 else m
  let m : Int := m + 33
  let seg := seg_search m seg_uend
  if seg ≥ 8 then 0x7F ^^^ mask
  else ((seg <<< 4) ||| ((m.toNat >>> (seg + 1)) &&& 0xF)) ^^^ mask

/-- Python `audioop.lin2ulaw(buf, 2)` on a buffer of 16-bit samples: each
sample is arithmetically shifted to 14 bits (`(s << 16) >> 18`, an exact floor
division by 4) and encoded. -/
def lin2ulaw (samples : List Int) : List Nat :=
  samples.map (fun s => st_14linear2ulaw (Int.fdiv s 4))

/-- The `st_ulaw2linear16` decoder table formula from `audioop.c`. -/
def st_ulaw2linear16 (u : Nat) : Int :=
  let uc := u ^^^ 0xFF
  let t : Nat := ((uc &&& 0xF) <<< 3) + 0x84
  let t : Nat := t <<< ((uc &&& 0x70) >>> 4)
  if uc &&& 0x80 ≠ 0 then (0x84 : Int) - (t : Int) else (t : Int) - 0x84

/-- Python `audioop.ulaw2lin(buf, 2)`: one 16-bit sample per µ-law byte. -/
def ulaw2lin (bytes : List Nat) : List Int := bytes.map st_ulaw2linear16

/-! ### Streaming rate conversion (CPython `audioop.ratecv`)

State and samples are kept exactly as `audioop.c` keeps them: samples are
scaled to 32 bits on input (`GETSAMPLE32`, a multiplication by 65536), the
filter state holds the scaled previous/current samples plus the phase
accumulator `d`, and emitted samples are scaled back (`SETSAMPLE32`, an
arithmetic right shift by 16, i.e. `Int.fdiv · 65536`).  The default digital
filter weights are `weightA = 1`, `weightB = 0`. -/

structure RatecvState where
  d : Int
  prev_i : Int
  cur_i : Int
deriving DecidableEq, Repr

/-- One iteration of the consume loop of `audioop.ratecv`: take one input
sample, then emit output samples while `d ≥ 0` (each emission interpolates
between the previous and current scaled samples and decreases `d` by the
reduced input rate).  The emit loop runs `d / inrate + 1` times when `d ≥ 0`;
`(int)(x / (double)outrate)` is modeled by `Int.tdiv x outrate` (exact for the
magnitudes arising here, see the file comment). -/
def ratecvStep (inrate outrate : Int) (st : RatecvState) (s : Int) :
    RatecvState × List Int :=
  let prev := st.cur_i
  let cur := Int.tdiv (1 * (s * 65536) + 0 * prev) (1 + 0)
  let d := st.d + outrate
  let n : Nat := if d < 0 then 0 else d.toNat / inrate.toNat + 1
  let outs := (List.range n).map (fun k =>
    let dk := d - k * inrate
    Int.fdiv (Int.tdiv (prev * dk + cur * (outrate - dk)) outrate) 65536)
  (⟨d - n * inrate, prev, cur⟩, outs)

/-- The main loop of `audioop.ratecv` over all input samples. -/
def ratecvLoop (inrate outrate : Int) : RatecvState → List Int → RatecvState × List Int
  | st, [] => (st, [])
  | st, s :: rest =>
      let p := ratecvStep inrate outrate st s
      let q := ratecvLoop inrate outrate p.1 rest
      (q.1, p.2 ++ q.2)

/-- Python `audioop.ratecv(fragment, 2, 1, inrate, outrate, state)`: rates are
reduced by their gcd; a `None` state starts with `d = -outrate` and zeroed
filter history.  Returns the converted fragment and the new state. -/
def ratecv (samples : List Int) (inrate outrate : Nat) (st : Option RatecvState) :
    List Int × RatecvState :=
  let g := Nat.gcd inrate outrate
  let ir : Int := (inrate / g : Nat)
  let outr : Int := (outrate / g : Nat)
  let st0 := st.getD ⟨-outr, 0, 0⟩
  let r := ratecvLoop ir outr st0 samples
  (r.2, r.1)

/-- Python `audioop.max(fragment, 2)`: maximum absolute sample value. -/
def audioop_max (samples : List Int) : Int :=
  samples.foldl (fun acc s => max acc (if s < 0 then -s else s)) 0

/-! ### `cli/test1.py` — audio settings and `AudioBridge` -/

def TWILIO_SR : Nat := 8000

def MODEL_SR : Nat := 24000

def FRAME_MS : Nat := 20

def BYTES_PER_SAMPLE : Nat := 2

/-- The per-connection converter state of `AudioBridge` (`cli/test1.py`):
`_to_model_state` and `_to_caller_state` are the two `audioop.ratecv`
continuity states, both `None` initially. -/
structure AudioBridge where
  to_model_state : Option RatecvState
  to_caller_state : Option RatecvState
deriving DecidableEq

/-- A fresh `AudioBridge()`. -/
def AudioBridge.init : AudioBridge := ⟨none, none⟩

/-- `AudioBridge.twilio_ulaw_to_model_pcm16`: µ-law 8k bytes to linear PCM16
at 24k, threading the inbound `ratecv` state. -/
def twilio_ulaw_to_model_pcm16 (b : AudioBridge) (b_ulaw : List Nat) :
    List Int × AudioBridge :=
  let lin16_8k := ulaw2lin b_ulaw
  let r := ratecv lin16_8k TWILIO_SR MODEL_SR b.to_model_state
  (r.1, { b with to_model_state := some r.2 })

/-- Frame size `int(TWILIO_SR * FRAME_MS / 1000) * BYTES_PER_SAMPLE` (320
bytes, i.e. 160 sixteen-bit samples). -/
def frame_bytes : Nat := TWILIO_SR * FRAME_MS / 1000 * BYTES_PER_SAMPLE

/-- The frame-splitting loop of `model_pcm16_to_twilio_ulaw_chunks`:
`for i in range(0, len, nsamp)` taking full slices of `nsamp` samples and
stopping (`break`) at a shorter trailing slice, which is dropped. -/
def splitFullFrames (nsamp : Nat) (samples : List Int) : List (List Int) :=
  if _h : samples.length < nsamp ∨ nsamp = 0 then []
  else samples.take nsamp :: splitFullFrames nsamp (samples.drop nsamp)
termination_by samples.length
decreasing_by
  simp only [List.length_drop]
  omega

/-- `AudioBridge.model_pcm16_to_twilio_ulaw_chunks`: model PCM16 at 24k to
base64 µ-law 20 ms frames for Twilio, threading the outbound `ratecv` state.
A trailing slice shorter than one frame is dropped by the `break`. -/
def model_pcm16_to_twilio_ulaw_chunks (b : AudioBridge) (pcm16_24k : List Int) :
    List String × AudioBridge :=
  let r := ratecv pcm16_24k MODEL_SR TWILIO_SR b.to_caller_state
  let nsamp := frame_bytes / BYTES_PER_SAMPLE
  let out := (splitFullFrames nsamp r.1).map (fun chunk => b64encode (lin2ulaw chunk))
  (out, { b with to_caller_state := some r.2 })

/-! ### `cli/test1.py` — the `/media` WebSocket session -/

/-- Calls made back into the realtime session by `read_from_twilio`. -/
inductive SessionCmd where
  | sendEvent (ty : String)
  | sendAudio (pcm : List Int)
deriving DecidableEq

/-- The per-connection mutable state of `media_ws`: `stream_sid`,
`is_playing_tts`, the `to_caller` frame queue and the `AudioBridge`. -/
structure MediaWsState where
  stream_sid : Option String
  is_playing_tts : Bool
  to_caller : List String
  bridge : AudioBridge
deriving DecidableEq

/-- A fresh `media_ws` connection state. -/
def MediaWsState.init : MediaWsState := ⟨none, false, [], AudioBridge.init⟩

/-- The barge-in amplitude threshold `VAD_PEAK` of `read_from_twilio`. -/
def VAD_PEAK : Int := 2000

/-- Events consumed by `pump_model_events`. -/
inductive ModelEvent where
  | agent_start
  | audio (data : List Int)
  | audio_end
  | audio_interrupted
  | error (msg : String)

/-- One iteration of `pump_model_events`: dispatch on the event type, extending
or flushing the `to_caller` queue and toggling `is_playing_tts`. -/
def pump_model_event (s : MediaWsState) (e : ModelEvent) : MediaWsState :=
  match e with
  | .agent_start => { s with is_playing_tts := true }
  | .audio data =>
      let r := model_pcm16_to_twilio_ulaw_chunks s.bridge data
      { s with bridge := r.2, to_caller := s.to_caller ++ r.1 }
  | .audio_end => { s with is_playing_tts := false }
  | .audio_interrupted => { s with is_playing_tts := false, to_caller := [] }
  | .error _ => s

/-- Messages received from the Twilio WebSocket in `read_from_twilio`. -/
inductive TwilioWsEvent where
  | start (streamSid : String)
  | media (payload : String)
  | mark
  | stop
  | other

/-- Result of one iteration of `read_from_twilio`: keep looping, leave the
loop (a `stop` event), or crash out of the loop (an uncaught exception inside
the loop body, e.g. a base64 decode error, caught by the outer handler). -/
inductive ReadOutcome where
  | next (s : MediaWsState) (cmds : List SessionCmd)
  | stopped (s : MediaWsState)
  | crashed (s : MediaWsState)
deriving DecidableEq

/-- One iteration of `read_from_twilio`.  In the `media` branch the payload is
base64-decoded, converted to model PCM, checked for barge-in (when
`is_playing_tts` and the peak amplitude is truthy and above `VAD_PEAK`: reset
`is_playing_tts`, send `response.cancel`, clear `to_caller`), and the PCM is
forwarded with `send_audio`. -/
def read_twilio_event (s : MediaWsState) (e : TwilioWsEvent) : ReadOutcome :=
  match e with
  | .start sid => .next { s with stream_sid := some sid } []
  | .media payload =>
      match b64decode payload with
      | none => .crashed s
      | some ulaw_bytes =>
          let r := twilio_ulaw_to_model_pcm16 s.bridge ulaw_bytes
          let pcm16_24k := r.1
          let s1 := { s with bridge := r.2 }
          if s1.is_playing_tts then
            let peak := audioop_max pcm16_24k
            if peak ≠ 0 ∧ peak > VAD_PEAK then
              .next { s1 with is_playing_tts := false, to_caller := [] }
                [.sendEvent "response.cancel", .sendAudio pcm16_24k]
            else .next s1 [.sendAudio pcm16_24k]
          else .next s1 [.sendAudio pcm16_24k]
  | .mark => .next s []
  | .stop => .stopped s
  | .other => .next s []

/-- One tick of `flush_to_caller`: pop the oldest frame when the queue is
non-empty, and transmit it only when both the frame and `stream_sid` are
truthy (non-empty).  Returns the new state and the transmitted
`(streamSid, payload)` pair, if any. -/
def flush_tick (s : MediaWsState) : MediaWsState × Option (String × String) :=
  match s.to_caller with
  | [] => (s, none)
  | f :: rest =>
      let s1 := { s with to_caller := rest }
      match s.stream_sid with
      | some sid => if f ≠ "" ∧ sid ≠ "" then (s1, some (sid, f)) else (s1, none)
      | none => (s1, none)

/-- Run `n` ticks of `flush_to_caller` with no intervening enqueues, collecting
the transmitted frames in order. -/
def flush_run : Nat → MediaWsState → MediaWsState × List (String × String)
  | 0, s => (s, [])
  | n + 1, s =>
      let p := flush_tick s
      let q := flush_run n p.1
      (q.1, p.2.toList ++ q.2)

/-! ### `cli/demo.py` — the local-speaker client `NoUIDemo` -/

def MAX_QUEUE : Nat := 128

def PREROLL_CHUNKS : Nat := 8

/-- The mutable playback state of `NoUIDemo`: the jitter buffer
(`output_queue`), the chunk currently being played with its read position, the
interrupt flag (`threading.Event`), the preroll gate and the half-duplex
flags. -/
structure DemoState where
  output_queue : List (List Int)
  current_audio_chunk : Option (List Int)
  chunk_position : Nat
  interrupt_event : Bool
  ready_to_play : Bool
  is_playing_tts : Bool
  block_mic : Bool
deriving DecidableEq

/-- The `while samples_filled < frames` playback loop of `_output_callback`:
pull chunks from the queue into the current slot and copy up to `remaining`
samples into the output, stopping on underrun.  Returns the remaining queue,
current chunk slot, chunk position and the samples copied so far. -/
def fill_samples (q : List (List Int)) (cur : Option (List Int)) (pos : Nat)
    (remaining : Nat) (acc : List Int) :
    List (List Int) × Option (List Int) × Nat × List Int :=
  if remaining = 0 then (q, cur, pos, acc)
  else
    match cur with
    | none =>
        match q with
        | [] => (q, none, pos, acc)
        | c :: q1 => fill_samples q1 (some c) 0 remaining acc
    | some c =>
        let n := min remaining (c.length - pos)
        if n = 0 then fill_samples q none 0 remaining acc
        else
          let acc1 := acc ++ (c.drop pos).take n
          let pos1 := pos + n
          if pos1 ≥ c.length then fill_samples q none 0 (remaining - n) acc1
          else fill_samples q (some c) pos1 (remaining - n) acc1
termination_by (remaining, q.length, if cur.isSome then 1 else 0)

/-- The `_output_callback` of `NoUIDemo` for a block of `frames` samples.
On a pending interrupt: flush the queue, reset the current chunk and position,
clear the event, drop the preroll gate and output silence.  Otherwise honor
the preroll gate (silence until `PREROLL_CHUNKS` chunks are queued, the flag
flipping as soon as enough are), then run the playback fill loop, padding an
underrun with silence. -/
def demo_output_callback (s : DemoState) (frames : Nat) : DemoState × List Int :=
  if s.interrupt_event then
    ({ s with
        output_queue := []
        current_audio_chunk := none
        chunk_position := 0
        interrupt_event := false
        ready_to_play := false },
      List.replicate frames 0)
  else if ¬ s.ready_to_play ∧ s.output_queue.length < PREROLL_CHUNKS then
    (s, List.replicate frames 0)
  else
    let s1 := { s with ready_to_play := true }
    let r := fill_samples s1.output_queue s1.current_audio_chunk s1.chunk_position frames []
    ({ s1 with
        output_queue := r.1
        current_audio_chunk := r.2.1
        chunk_position := r.2.2.1 },
      r.2.2.2 ++ List.replicate (frames - r.2.2.2.length) 0)

/-- The `audio` branch of `NoUIDemo._on_event`: `put_nowait` the chunk; on
`queue.Full` drop the single oldest entry with `get_nowait` and retry (on the
unreachable `queue.Empty` the new chunk is dropped); then open the preroll
gate when enough chunks are buffered. -/
def demo_on_audio (s : DemoState) (np_audio : List Int) : DemoState :=
  let q := s.output_queue
  let q1 :=
    if q.length < MAX_QUEUE then q ++ [np_audio]
    else
      match q with
      | [] => []
      | _ :: t => t ++ [np_audio]
  let s1 := { s with output_queue := q1 }
  if ¬ s1.ready_to_play ∧ q1.length ≥ PREROLL_CHUNKS then
    { s1 with ready_to_play := true }
  else s1

/-- The `agent_start` branch of `NoUIDemo._on_event`. -/
def demo_on_agent_start (s : DemoState) : DemoState :=
  { s with is_playing_tts := true, block_mic := true }

/-- The `audio_end` branch of `NoUIDemo._on_event`. -/
def demo_on_audio_end (s : DemoState) : DemoState :=
  { s with is_playing_tts := false, block_mic := false }

/-- The `audio_interrupted` branch of `NoUIDemo._on_event`: drop the
half-duplex gating and set the interrupt event; the actual queue flush happens
in the next `_output_callback` invocation. -/
def demo_on_audio_interrupted (s : DemoState) : DemoState :=
  { s with is_playing_tts := false, block_mic := false, interrupt_event := true }

/-- Firing the barge-in/interrupt action once in `cli/demo.py`: the
`audio_interrupted` event handler followed by the next output callback (which
performs the flush and reset).  The audio samples produced by the callback are
silence and are discarded here. -/
def demo_fire_interrupt (frames : Nat) (s : DemoState) : DemoState :=
  (demo_output_callback (demo_on_audio_interrupted s) frames).1

/-! ### `twilio/twilio_handler.py` — `TwilioHandler`

Mark identifiers in the source are the decimal strings
`str(self._mark_counter)` keyed in the `_mark_data` dict; since `str` is
injective on naturals the model keys marks by the underlying counter value
directly, and renders the string form with `toString` only inside outgoing
messages. -/

/-- One `_mark_data` entry: `(item_id, content_index, byte_count)`. -/
structure MarkTuple where
  item_id : String
  content_index : Nat
  byte_count : Nat
deriving DecidableEq

/-- Audio attached to a history content item: Python `bytes` or an
already-base64 `str`. -/
inductive AudioData where
  | raw (b : List Nat)
  | b64str (t : String)
deriving DecidableEq

/-- A content entry of a conversation-history item. -/
structure ContentItem where
  ctype : String
  audio : Option AudioData
deriving DecidableEq

/-- A conversation-history item. -/
structure HistoryItem where
  role : String
  item_id : String
  content : List ContentItem
deriving DecidableEq

/-- The mutable state of a `TwilioHandler`. -/
structure THState where
  stream_sid : Option String
  audio_buffer : List Nat
  last_buffer_send_time : Nat
  mark_counter : Nat
  mark_data : List (Nat × MarkTuple)
  processed_audio_items : List String
  has_session : Bool
deriving DecidableEq

/-- Effects the handler performs on its collaborators: messages sent over the
Twilio WebSocket, audio forwarded to the realtime session, and calls into the
playback tracker. -/
inductive Effect where
  | wsMedia (sid : Option String) (payload : String)
  | wsMark (sid : Option String) (name : String)
  | wsClear (sid : Option String)
  | sessionAudio (data : List Nat)
  | playbackUpdate (item_id : String) (content_index : Nat) (bytes : List Nat)
deriving DecidableEq

/-- Python dict lookup on the mark map. -/
def dictLookup (m : List (Nat × MarkTuple)) (k : Nat) : Option MarkTuple :=
  match m with
  | [] => none
  | kv :: rest => if kv.1 = k then some kv.2 else dictLookup rest k

/-- Python dict assignment `m[k] = v` (overwrites any existing binding). -/
def dictInsert (m : List (Nat × MarkTuple)) (k : Nat) (v : MarkTuple) :
    List (Nat × MarkTuple) :=
  (k, v) :: m.filter (fun kv => kv.1 ≠ k)

/-- Python dict deletion `del m[k]`. -/
def dictErase (m : List (Nat × MarkTuple)) (k : Nat) : List (Nat × MarkTuple) :=
  m.filter (fun kv => kv.1 ≠ k)

/-- Buffer threshold `int(SAMPLE_RATE * CHUNK_LENGTH_S)` = `int(8000 * 0.09)`
= 720 bytes. -/
def BUFFER_SIZE_BYTES : Nat := 720

/-- History-audio chunking size from `_handle_history_audio`. -/
def chunk_size : Nat := 4000

/-- The `audio` branch of `_handle_realtime_event`: base64 the payload, send
it as a `media` message, then allocate a fresh mark id by incrementing
`_mark_counter`, record `(item_id, content_index, byte_count)` under it and
send the `mark` message. -/
def handle_realtime_audio (s : THState) (item_id : String) (content_index : Nat)
    (data : List Nat) : THState × List Effect :=
  let base64_audio := b64encode data
  let counter1 := s.mark_counter + 1
  let s1 := { s with
      mark_counter := counter1
      mark_data := dictInsert s.mark_data counter1 ⟨item_id, content_index, data.length⟩ }
  (s1, [.wsMedia s.stream_sid base64_audio, .wsMark s.stream_sid (toString counter1)])

/-- The `audio_interrupted` branch of `_handle_realtime_event`: send a `clear`
message; the handler state is untouched. -/
def handle_realtime_audio_interrupted (s : THState) : THState × List Effect :=
  (s, [.wsClear s.stream_sid])

/-- `TwilioHandler._handle_mark_event`: look the mark id up in `_mark_data`;
when found, report `byte_count` placeholder zero bytes for the recorded item
and content index to the playback tracker and delete the entry; an unknown id
does nothing. -/
def handle_mark_event (s : THState) (mark_id : Nat) : THState × List Effect :=
  match dictLookup s.mark_data mark_id with
  | some t =>
      let audio_bytes := List.replicate t.byte_count 0
      ({ s with mark_data := dictErase s.mark_data mark_id },
        [.playbackUpdate t.item_id t.content_index audio_bytes])
  | none => (s, [])

/-- `TwilioHandler._flush_audio_buffer`: send the buffered bytes to the
session (when the buffer is non-empty and a session exists), clear the buffer
and stamp the send time. -/
def flush_audio_buffer (s : THState) (now : Nat) : THState × List Effect :=
  if s.audio_buffer = [] ∨ ¬ s.has_session then (s, [])
  else
    ({ s with audio_buffer := [], last_buffer_send_time := now },
      [.sessionAudio s.audio_buffer])

/-- `TwilioHandler._handle_media_event`: skip a falsy payload; base64-decode
the payload (`none` models the raised decode error, caught locally so that
only the offending chunk is dropped and the state is untouched); append the
bytes to `_audio_buffer` and flush once `BUFFER_SIZE_BYTES` is reached. -/
def handle_media_event (s : THState) (payload : String) (now : Nat) :
    THState × List Effect :=
  if payload = "" then (s, [])
  else
    match b64decode payload with
    | none => (s, [])
    | some ulaw_bytes =>
        let s1 := { s with audio_buffer := s.audio_buffer ++ ulaw_bytes }
        if BUFFER_SIZE_BYTES ≤ s1.audio_buffer.length then flush_audio_buffer s1 now
        else (s1, [])

/-- Messages arriving from the Twilio media stream (after JSON parsing). -/
inductive TwilioMessage where
  | connected
  | start (streamSid : String)
  | media (payload : String)
  | mark (name : Nat)
  | stop
  | keepalive
  | unknown

/-- `TwilioHandler._handle_twilio_message`: dispatch on the event tag.  The
`start` branch binds `_stream_sid` only the first time; `stop` and `keepalive`
only log. -/
def handle_twilio_message (s : THState) (m : TwilioMessage) (now : Nat) :
    THState × List Effect :=
  match m with
  | .connected => (s, [])
  | .start sid =>
      if s.stream_sid = none then ({ s with stream_sid := some sid }, []) else (s, [])
  | .media payload => handle_media_event s payload now
  | .mark name => handle_mark_event s name
  | .stop => (s, [])
  | .keepalive => (s, [])
  | .unknown => (s, [])

/-- One iteration of `_twilio_message_loop` on a successfully parsed message:
every handler exception is caught inside `_handle_twilio_message`, and no
branch of the loop body breaks, so the loop always continues (the returned
flag). -/
def twilio_message_loop_step (s : THState) (m : TwilioMessage) (now : Nat) :
    THState × List Effect × Bool :=
  let r := handle_twilio_message s m now
  (r.1, r.2, true)

/-! ### `twilio/twilio_handler.py` — `_handle_history_audio` -/

/-- Python truthiness of a content item's `audio` attribute. -/
def audioTruthy : AudioData → Bool
  | .raw b => !b.isEmpty
  | .b64str t => !(t = "")

/-- Normalize a content item's audio as `_handle_history_audio` does: `bytes`
are base64-encoded; a `str` is decoded (a failure is caught and the content
item skipped) and re-encoded; the payload bytes are then recovered with
`base64.b64decode(base64_audio)`.  Returns `(base64_audio, audio_bytes)`, or
`none` when a decode step fails. -/
def contentAudioBytes (a : AudioData) : Option (String × List Nat) :=
  let enc : Option String :=
    match a with
    | .raw b => some (b64encode b)
    | .b64str t => (b64decode t).map (fun db => b64encode db)
  match enc with
  | none => none
  | some base64_audio =>
      match b64decode base64_audio with
      | none => none
      | some audio_bytes => some (base64_audio, audio_bytes)

/-- The inner content loop of `_handle_history_audio`: the first content item
with `type == 'audio'` and truthy audio whose decoding succeeds. -/
def firstAudioContent : List ContentItem → Option (String × List Nat)
  | [] => none
  | ci :: rest =>
      match ci.audio with
      | some a =>
          if ci.ctype = "audio" ∧ audioTruthy a then
            match contentAudioBytes a with
            | some r => some r
            | none => firstAudioContent rest
          else firstAudioContent rest
      | none => firstAudioContent rest

/-- Split a byte string into slices of `n` bytes, the last possibly shorter
(`range(0, len, n)` slicing). -/
def chunksOf (n : Nat) (l : List Nat) : List (List Nat) :=
  if _h : l = [] ∨ n = 0 then []
  else l.take n :: chunksOf n (l.drop n)
termination_by l.length
decreasing_by
  simp only [List.length_drop]
  rcases Nat.eq_zero_or_pos n with h0 | h0
  · exact absurd (Or.inr h0) _h
  · have : l ≠ [] := fun he => absurd (Or.inl he) _h
    have : 0 < l.length := List.length_pos.mpr this
    omega

/-- The transmission part of `_handle_history_audio` once an item's audio is
found: send the audio as one `media` message, or in `chunk_size`-byte slices
when larger; allocate a fresh mark recording `(item_id, 0, len(audio_bytes))`;
send the `mark` message; record the item id as processed. -/
def send_item_audio (s : THState) (item_id : String) (base64_audio : String)
    (audio_bytes : List Nat) : THState × List Effect :=
  let mediaMsgs : List Effect :=
    if chunk_size < audio_bytes.length then
      (chunksOf chunk_size audio_bytes).map (fun c => .wsMedia s.stream_sid (b64encode c))
    else [.wsMedia s.stream_sid base64_audio]
  let counter1 := s.mark_counter + 1
  let s1 := { s with
      mark_counter := counter1
      mark_data := dictInsert s.mark_data counter1 ⟨item_id, 0, audio_bytes.length⟩
      processed_audio_items := item_id :: s.processed_audio_items }
  (s1, mediaMsgs ++ [.wsMark s.stream_sid (toString counter1)])

/-- The outer loop of `_handle_history_audio` over `reversed(event.history)`:
skip non-assistant items and items already in `_processed_audio_items`; for
the first remaining item with usable audio, send it and return; when an item
has no usable audio, continue with the next (earlier) item. -/
def handle_history_audio_loop : THState → List HistoryItem → THState × List Effect
  | s, [] => (s, [])
  | s, item :: rest =>
      if item.role = "assistant" then
        if item.item_id ∈ s.processed_audio_items then handle_history_audio_loop s rest
        else
          match firstAudioContent item.content with
          | some r => send_item_audio s item.item_id r.1 r.2
          | none => handle_history_audio_loop s rest
      else handle_history_audio_loop s rest

/-- `TwilioHandler._handle_history_audio` on a `history_updated` event. -/
def handle_history_audio (s : THState) (history : List HistoryItem) :
    THState × List Effect :=
  handle_history_audio_loop s history.reverse

/-- The `_processed_audio_items.clear()` performed at the top of
`TwilioHandler.start()` — the only place the processed set is reset. -/
def start_clear_processed (s : THState) : THState :=
  { s with processed_audio_items := [] }

/-! ### `twilio/twilio_handler.py` — `_cleanup_tasks`

The four background tasks are modeled by `Option TaskRef` (the value of the
corresponding attribute after `start()` has run: a task object with its done
flag, or `None`).  Awaiting a cancelled task and closing the session may raise;
those outcomes are inputs of the model, and the `Except` result exposes
whether an exception propagates out of `_cleanup_tasks`. -/

/-- An `asyncio.Task` as far as `_cleanup_tasks` observes it. -/
structure TaskRef where
  done : Bool
deriving DecidableEq

/-- Outcome of awaiting a cancelled task. -/
inductive AwaitResult where
  | cancelled
  | failed (msg : String)
  | finished
deriving DecidableEq

/-- Outcome of `await self.session.close()`. -/
inductive CloseResult where
  | ok
  | failed (msg : String)
deriving DecidableEq

/-- The slice of `TwilioHandler` state that `_cleanup_tasks` touches.
`close_calls` counts the invocations of `session.close()`; note that the
source never clears `self.session`, so the reference stays set. -/
structure CleanupState where
  realtime_session_task : Option TaskRef
  message_loop_task : Option TaskRef
  buffer_flush_task : Option TaskRef
  keepalive_task : Option TaskRef
  session : Bool
  close_calls : Nat
deriving DecidableEq

/-- One entry of the `tasks_to_cancel` loop: `if task and not task.done():
task.cancel()` then `await task` inside `try`/`except CancelledError`/`except
Exception` — every await outcome is caught, so the step never propagates an
exception. -/
def cancel_one (t : Option TaskRef) (res : AwaitResult) : Except String (Option TaskRef) :=
  match t with
  | none => .ok none
  | some tr =>
      if tr.done then .ok (some tr)
      else
        match res with
        | .cancelled => .ok (some ⟨true⟩)
        | .failed _ => .ok (some ⟨true⟩)
        | .finished => .ok (some ⟨true⟩)

/-- `TwilioHandler._cleanup_tasks`: cancel and await each of the four
background tasks, then `if self.session: await self.session.close()` inside
`try`/`except` — the close is attempted on every invocation because
`self.session` is never reset. -/
def cleanup_tasks (s : CleanupState) (r1 r2 r3 r4 : AwaitResult)
    (closeRes : CloseResult) : Except String CleanupState := do
  let t1 ← cancel_one s.realtime_session_task r1
  let t2 ← cancel_one s.message_loop_task r2
  let t3 ← cancel_one s.buffer_flush_task r3
  let t4 ← cancel_one s.keepalive_task r4
  let s1 : CleanupState := { s with
      realtime_session_task := t1
      message_loop_task := t2
      buffer_flush_task := t3
      keepalive_task := t4 }
  if s1.session then
    match closeRes with
    | .ok => .ok { s1 with close_calls := s1.close_calls + 1 }
    | .failed _ => .ok { s1 with close_calls := s1.close_calls + 1 }
  else .ok s1

/-- The state after `_cleanup_tasks` (it always returns normally). -/
def runCleanup (s : CleanupState) (r1 r2 r3 r4 : AwaitResult)
    (closeRes : CloseResult) : CleanupState :=
  match cleanup_tasks s r1 r2 r3 r4 closeRes with
  | .ok s1 => s1
  | .error _ => s

/-- A task slot holds no still-pending task. -/
def taskSettled (t : Option TaskRef) : Prop :=
  ∀ tr, t = some tr → tr.done = true

/-- Every pending mark id was allocated by the counter: it lies in
`1 .. _mark_counter`. -/
def marksWellFormed (s : THState) : Prop :=
  ∀ kv ∈ s.mark_data, 1 ≤ kv.1 ∧ kv.1 ≤ s.mark_counter

/-- Input of 240 model-rate samples, resampling to 80 telephony samples —
half of one 160-sample frame. -/
def c1_in1 : List Int := List.replicate 240 1000

/-- Bridge state after the first conversion call on a fresh bridge. -/
def c1_state1 : AudioBridge :=
  (model_pcm16_to_twilio_ulaw_chunks AudioBridge.init c1_in1).2

/-! ### Helper lemmas -/

theorem dictLookup_erase_self (m : List (Nat × MarkTuple)) (k : Nat) :
    dictLookup (dictErase m k) k = none := by
  induction m with
  | nil => rfl
  | cons kv rest ih =>
      by_cases h : kv.1 = k
      · simpa [dictErase, h] using ih
      · simpa [dictErase, dictLookup, h] using ih

theorem dictLookup_insert_self (m : List (Nat × MarkTuple)) (k : Nat) (v : MarkTuple) :
    dictLookup (dictInsert m k v) k = some v := by
  simp [dictInsert, dictLookup]

theorem dictLookup_none_of_lt (m : List (Nat × MarkTuple)) (k : Nat)
    (h : ∀ kv ∈ m, kv.1 < k) : dictLookup m k = none := by
  induction m with
  | nil => rfl
  | cons kv rest ih =>
      have h1 := h kv (by simp)
      have h2 : kv.1 ≠ k := Nat.ne_of_lt h1
      simp only [dictLookup, h2, if_false]
      exact ih (fun p hp => h p (by simp [hp]))

theorem mem_dictInsert (m : List (Nat × MarkTuple)) (k : Nat) (v : MarkTuple)
    (p : Nat × MarkTuple) (hp : p ∈ dictInsert m k v) : p = (k, v) ∨ p ∈ m := by
  simp only [dictInsert, List.mem_cons] at hp
  rcases hp with hp | hp
  · exact Or.inl hp
  · exact Or.inr (List.mem_of_mem_filter hp)

/-! ### Claim theorems -/

/-- C2: inserting into the jitter buffer of the local-speaker variant
(`NoUIDemo._on_event`, audio branch) never exceeds the configured capacity;
below capacity the chunk is appended and nothing is dropped; at capacity
exactly the single oldest entry is dropped and the relative order of the
remainder is unchanged (the new queue is the old queue's tail with the new
chunk appended). -/
theorem C2_jitter_buffer_insert (s : DemoState) (c : List Int)
    (h : s.output_queue.length ≤ MAX_QUEUE) :
    (demo_on_audio s c).output_queue.length ≤ MAX_QUEUE ∧
    (s.output_queue.length < MAX_QUEUE →
      (demo_on_audio s c).output_queue = s.output_queue ++ [c]) ∧
    (s.output_queue.length = MAX_QUEUE →
      (demo_on_audio s c).output_queue = s.output_queue.tail ++ [c]) := by
  have hq : (demo_on_audio s c).output_queue =
      if s.output_queue.length < MAX_QUEUE then s.output_queue ++ [c]
      else
        match s.output_queue with
        | [] => []
        | _ :: t => t ++ [c] := by
    simp only [demo_on_audio]
    split <;> split <;> rfl
  refine ⟨?_, ?_, ?_⟩
  · rw [hq]
    split
    · simp
      omega
    · rcases hmm : s.output_queue with _ | ⟨x, t⟩
      · simp
      · have : s.output_queue.length ≤ MAX_QUEUE := h
        simp [hmm] at this ⊢
        omega
  · intro hlt
    rw [hq, if_pos hlt]
  · intro heq
    have hne : s.output_queue ≠ [] := by
      intro hnil
      rw [hnil] at heq
      simp [MAX_QUEUE] at heq
    rw [hq, if_neg (by omega)]
    rcases hmm : s.output_queue with _ | ⟨x, t⟩
    · exact absurd hmm hne
    · simp [hmm]

/-- C2 witness: a queue at full capacity (128 entries) drops exactly the
oldest entry and stays at capacity. -/
theorem C2_jitter_buffer_insert_witness :
    (demo_on_audio ⟨List.replicate 128 ([] : List Int), none, 0, false, false, false, false⟩
        [5]).output_queue.length ≤ MAX_QUEUE ∧
    (demo_on_audio ⟨List.replicate 128 ([] : List Int), none, 0, false, false, false, false⟩
        [5]).output_queue
      = (List.replicate 128 ([] : List Int)).tail ++ [[5]] := by
  have h := C2_jitter_buffer_insert
    ⟨List.replicate 128 ([] : List Int), none, 0, false, false, false, false⟩ [5]
    (by simp [MAX_QUEUE])
  exact ⟨h.1, h.2.2 (by simp [MAX_QUEUE])⟩

/-- C4: firing the barge-in/interrupt action twice in succession (with no
intervening enqueues) leaves the system in the same state as firing it once,
and after either invocation the outbound queue is empty, the current-chunk
pointer is reset and playback is no longer in the agent-speaking state — both
in the local-speaker variant (`demo.py`: `audio_interrupted` handler followed
by the flushing output callback) and in the network relay variant
(`test1.py`: the `audio_interrupted` branch of `pump_model_events`). -/
theorem C4_interrupt_idempotent (s : DemoState) (frames : Nat) (t : MediaWsState) :
    demo_fire_interrupt frames (demo_fire_interrupt frames s)
      = demo_fire_interrupt frames s ∧
    (demo_fire_interrupt frames s).output_queue = [] ∧
    (demo_fire_interrupt frames s).current_audio_chunk = none ∧
    (demo_fire_interrupt frames s).chunk_position = 0 ∧
    (demo_fire_interrupt frames s).is_playing_tts = false ∧
    (demo_fire_interrupt frames s).interrupt_event = false ∧
    pump_model_event (pump_model_event t .audio_interrupted) .audio_interrupted
      = pump_model_event t .audio_interrupted ∧
    (pump_model_event t .audio_interrupted).to_caller = [] ∧
    (pump_model_event t .audio_interrupted).is_playing_tts = false := by
  refine ⟨?_, ?_, ?_, ?_, ?_, ?_, ?_, ?_, ?_⟩ <;>
    simp [demo_fire_interrupt, demo_on_audio_interrupted, demo_output_callback,
      pump_model_event]

/-- C5: a fresh mark id (`_mark_counter + 1`) is never one that is still
pending acknowledgment (given that every pending id was allocated by the
counter, an invariant both allocation sites preserve), and the fresh id is
recorded for the newly transmitted chunk; an acknowledgment for an unknown
mark id is a no-op: `_handle_mark_event` raises nothing, reports nothing and
leaves the state unchanged. -/
theorem C5_mark_ids_fresh_unknown_ack_noop (s : THState) (item : String)
    (ci : Nat) (data : List Nat) (b64a : String) (bytes : List Nat) (mark_id : Nat)
    (hwf : marksWellFormed s) (hunk : dictLookup s.mark_data mark_id = none) :
    dictLookup s.mark_data (s.mark_counter + 1) = none ∧
    dictLookup (handle_realtime_audio s item ci data).1.mark_data (s.mark_counter + 1)
      = some ⟨item, ci, data.length⟩ ∧
    marksWellFormed (handle_realtime_audio s item ci data).1 ∧
    dictLookup (send_item_audio s item b64a bytes).1.mark_data (s.mark_counter + 1)
      = some ⟨item, 0, bytes.length⟩ ∧
    marksWellFormed (send_item_audio s item b64a bytes).1 ∧
    handle_mark_event s mark_id = (s, []) := by
  have hfresh : dictLookup s.mark_data (s.mark_counter + 1) = none :=
    dictLookup_none_of_lt _ _ (fun kv hkv => by
      have := (hwf kv hkv).2
      omega)
  refine ⟨hfresh, ?_, ?_, ?_, ?_, ?_⟩
  · simp [handle_realtime_audio, dictLookup_insert_self]
  · intro kv hkv
    simp only [handle_realtime_audio] at hkv
    rcases mem_dictInsert _ _ _ _ hkv with h | h
    · simp [h, handle_realtime_audio]
    · have := hwf kv h
      simp only [handle_realtime_audio]
      omega
  · simp [send_item_audio, dictLookup_insert_self]
  · intro kv hkv
    simp only [send_item_audio] at hkv
    rcases mem_dictInsert _ _ _ _ hkv with h | h
    · simp [h, send_item_audio]
    · have := hwf kv h
      simp only [send_item_audio]
      omega
  · simp [handle_mark_event, hunk]

/-- C5 witness: the first allocated mark id on a fresh handler is `1`, it is
recorded for the transmitted chunk, and an acknowledgment for the unknown
mark id `7` is a no-op. -/
theorem C5_mark_ids_fresh_unknown_ack_noop_witness :
    dictLookup (handle_realtime_audio ⟨none, [], 0, 0, [], [], true⟩
        "item_1" 0 [1, 2]).1.mark_data 1 = some ⟨"item_1", 0, 2⟩ ∧
    handle_mark_event ⟨none, [], 0, 0, [], [], true⟩ 7
      = (⟨none, [], 0, 0, [], [], true⟩, []) := by
  have h := C5_mark_ids_fresh_unknown_ack_noop ⟨none, [], 0, 0, [], [], true⟩
    "item_1" 0 [1, 2] "" [] 7 (by intro kv hkv; simp at hkv) rfl
  exact ⟨h.2.1, h.2.2.2.2.2⟩

/-- C6: acknowledging a known pending mark reports exactly the recorded
triple — the stored item id and content index with a byte string whose length
is exactly the recorded byte count — to the playback tracker, then deletes the
mark record, so the same acknowledgment a second time reports nothing and
changes nothing. -/
theorem C6_mark_ack_exact_and_consumed_once (s : THState) (mark_id : Nat)
    (t : MarkTuple) (hl : dictLookup s.mark_data mark_id = some t) :
    handle_mark_event s mark_id =
      ({ s with mark_data := dictErase s.mark_data mark_id },
        [.playbackUpdate t.item_id t.content_index (List.replicate t.byte_count 0)]) ∧
    (List.replicate t.byte_count (0 : Nat)).length = t.byte_count ∧
    dictLookup (handle_mark_event s mark_id).1.mark_data mark_id = none ∧
    handle_mark_event (handle_mark_event s mark_id).1 mark_id
      = ((handle_mark_event s mark_id).1, []) := by
  have h1 : handle_mark_event s mark_id =
      ({ s with mark_data := dictErase s.mark_data mark_id },
        [.playbackUpdate t.item_id t.content_index (List.replicate t.byte_count 0)]) := by
    simp [handle_mark_event, hl]
  refine ⟨h1, by simp, ?_, ?_⟩
  · rw [h1]
    exact dictLookup_erase_self _ _
  · rw [h1]
    simp [handle_mark_event, dictLookup_erase_self]

/-- C6 witness: a pending mark `1` for item `itemA` at content index 2 with 3
recorded bytes is reported exactly once, with exactly 3 bytes, and the second
acknowledgment is a no-op. -/
theorem C6_mark_ack_exact_and_consumed_once_witness :
    handle_mark_event ⟨none, [], 0, 1, [(1, ⟨"itemA", 2, 3⟩)], [], true⟩ 1
      = (⟨none, [], 0, 1, [], [], true⟩,
          [.playbackUpdate "itemA" 2 [0, 0, 0]]) ∧
    handle_mark_event ⟨none, [], 0, 1, [], [], true⟩ 1
      = (⟨none, [], 0, 1, [], [], true⟩, []) := by
  have h := C6_mark_ack_exact_and_consumed_once
    ⟨none, [], 0, 1, [(1, ⟨"itemA", 2, 3⟩)], [], true⟩ 1 ⟨"itemA", 2, 3⟩ rfl
  refine ⟨?_, ?_⟩
  · have := h.1
    simpa [dictErase, List.replicate] using this
  · have := h.2.2.2
    have h1 := h.1
    simp [dictErase] at h1
    rw [h1] at this
    simpa using this

/-- C8: a malformed inbound media chunk (an undecodable base64 payload) is a
local error: `_handle_media_event` drops the chunk, leaves the accumulated
audio buffer and every other handler field unchanged, forwards nothing, and
the Twilio message loop continues with the next message — the session is not
torn down. -/
theorem C8_malformed_media_chunk_local (s : THState) (payload : String) (now : Nat)
    (hdec : b64decode payload = none) :
    handle_media_event s payload now = (s, []) ∧
    twilio_message_loop_step s (.media payload) now = (s, [], true) := by
  have h1 : handle_media_event s payload now = (s, []) := by
    by_cases hp : payload = ""
    · simp [handle_media_event, hp]
    · simp [handle_media_event, hp, hdec]
  exact ⟨h1, by simp [twilio_message_loop_step, handle_twilio_message, h1]⟩

/-- C8 witness: the payload `"A"` raises `binascii.Error` in Python (one
leftover base64 character); the handler drops it and the loop continues. -/
theorem C8_malformed_media_chunk_local_witness :
    handle_media_event ⟨some "MZ1", [9, 9], 5, 0, [], [], true⟩ "A" 6
      = (⟨some "MZ1", [9, 9], 5, 0, [], [], true⟩, []) ∧
    twilio_message_loop_step ⟨some "MZ1", [9, 9], 5, 0, [], [], true⟩ (.media "A") 6
      = (⟨some "MZ1", [9, 9], 5, 0, [], [], true⟩, [], true) :=
  C8_malformed_media_chunk_local ⟨some "MZ1", [9, 9], 5, 0, [], [], true⟩ "A" 6 (by decide)


/-- Transmitted frames and remaining queue after `n` pacing ticks, when a
non-empty stream id is bound and every queued frame is non-empty: the first
`n` queued frames are sent, in order, and the rest remain queued. -/
theorem flush_run_spec (n : Nat) (s : MediaWsState) (sid : String)
    (hsid : s.stream_sid = some sid) (hne : sid ≠ "")
    (hfr : ∀ f ∈ s.to_caller, f ≠ "") :
    (flush_run n s).2 = (s.to_caller.take n).map (fun f => (sid, f)) ∧
    (flush_run n s).1.to_caller = s.to_caller.drop n ∧
    (flush_run n s).1.stream_sid = some sid := by
  induction n generalizing s with
  | zero => simp [flush_run, hsid]
  | succ n ih =>
      rcases hq : s.to_caller with _ | ⟨f, rest⟩
      · have ht : flush_tick s = (s, none) := by
          simp [flush_tick, hq]
        simp only [flush_run, ht]
        have := ih s hsid (by simp [hq])
        simp [hq] at this ⊢
        exact this
      · have hf : f ≠ "" := hfr f (by simp [hq])
        have ht : flush_tick s = ({ s with to_caller := rest }, some (sid, f)) := by
          simp [flush_tick, hq, hsid, hf, hne]
        simp only [flush_run, ht]
        have := ih { s with to_caller := rest } (by simpa using hsid)
          (fun g hg => hfr g (by simp [hq, hg]))
        simp [hq] at this ⊢
        exact this

/-- C3: when inbound caller audio whose decoded peak amplitude exceeds the
threshold arrives while the agent is speaking, the very same
`read_from_twilio` step clears the outbound queue, sends the
`response.cancel` control event to the session, and leaves the
agent-speaking state (`is_playing_tts` becomes false). -/
theorem C3_barge_in_cancels (s : MediaWsState) (payload : String) (ub : List Nat)
    (hdec : b64decode payload = some ub)
    (htts : s.is_playing_tts = true)
    (hpeak : VAD_PEAK < audioop_max (twilio_ulaw_to_model_pcm16 s.bridge ub).1) :
    ∃ s1 cmds, read_twilio_event s (.media payload) = .next s1 cmds ∧
      s1.to_caller = [] ∧ s1.is_playing_tts = false ∧
      SessionCmd.sendEvent "response.cancel" ∈ cmds := by
  have hpk : audioop_max (twilio_ulaw_to_model_pcm16 s.bridge ub).1 ≠ 0 ∧
      audioop_max (twilio_ulaw_to_model_pcm16 s.bridge ub).1 > VAD_PEAK := by
    constructor
    · intro h0
      rw [h0] at hpeak
      exact absurd hpeak (by decide)
    · exact hpeak
  refine ⟨{ s with
      bridge := (twilio_ulaw_to_model_pcm16 s.bridge ub).2
      is_playing_tts := false
      to_caller := [] },
    [SessionCmd.sendEvent "response.cancel",
      SessionCmd.sendAudio (twilio_ulaw_to_model_pcm16 s.bridge ub).1],
    ?_, rfl, rfl, by simp⟩
  simp only [read_twilio_event, hdec, htts]
  rw [if_pos hpk]
  simp

/-- C3 witness: a single µ-law byte `0x00` (payload `"AA=="`) decodes to peak
amplitude 32124 > 2000; arriving while the agent speaks, the step clears the
queue, cancels the response and stops agent playback. -/
theorem C3_barge_in_cancels_witness :
    ∃ s1 cmds,
      read_twilio_event ⟨some "MZ1", true, ["frame1"], AudioBridge.init⟩
          (.media "AA==") = .next s1 cmds ∧
      s1.to_caller = [] ∧ s1.is_playing_tts = false ∧
      SessionCmd.sendEvent "response.cancel" ∈ cmds :=
  C3_barge_in_cancels ⟨some "MZ1", true, ["frame1"], AudioBridge.init⟩ "AA==" [0]
    (by decide) rfl (by decide)

/-- C7: on every 20 ms pacing tick of `flush_to_caller`, nothing is
transmitted when the queue is empty; when the queue is non-empty and a
non-empty stream id is bound, exactly the single oldest queued frame is
removed and transmitted; consequently over any number of ticks the frames are
transmitted in exactly their enqueue order (the sent list is the queue's
`n`-prefix, in order). -/
theorem C7_pacing_fifo (s : MediaWsState) (sid : String) (n : Nat)
    (hsid : s.stream_sid = some sid) (hne : sid ≠ "")
    (hfr : ∀ f ∈ s.to_caller, f ≠ "") :
    (s.to_caller = [] → flush_tick s = (s, none)) ∧
    (∀ f rest, s.to_caller = f :: rest →
      flush_tick s = ({ s with to_caller := rest }, some (sid, f))) ∧
    (flush_run n s).2.map Prod.snd = s.to_caller.take n ∧
    (flush_run n s).1.to_caller = s.to_caller.drop n := by
  have hrun := flush_run_spec n s sid hsid hne hfr
  refine ⟨?_, ?_, ?_, hrun.2.1⟩
  · intro hq
    simp [flush_tick, hq]
  · intro f rest hq
    have hf : f ≠ "" := hfr f (by simp [hq])
    simp [flush_tick, hq, hsid, hf, hne]
  · rw [hrun.1]
    simp

/-- C7 witness: two queued frames are sent over two ticks in enqueue order and
the queue empties. -/
theorem C7_pacing_fifo_witness :
    (flush_run 2 ⟨some "MZ1", false, ["fr1", "fr2"], AudioBridge.init⟩).2.map Prod.snd
      = ["fr1", "fr2"] ∧
    (flush_run 2 ⟨some "MZ1", false, ["fr1", "fr2"], AudioBridge.init⟩).1.to_caller
      = [] := by
  have h := C7_pacing_fifo ⟨some "MZ1", false, ["fr1", "fr2"], AudioBridge.init⟩
    "MZ1" 2 rfl (by decide) (by decide)
  exact ⟨h.2.2.1, h.2.2.2⟩


/-- Length of the base64 encoding: four characters per started 3-byte group. -/
theorem b64encodeBytes_length (l : List Nat) :
    (b64encodeBytes l).length = (l.length + 2) / 3 * 4 := by
  induction l using b64encodeBytes.induct with
  | case1 => simp [b64encodeBytes]
  | case2 x => simp [b64encodeBytes]
  | case3 x y => simp [b64encodeBytes]
  | case4 x y z rest ih =>
      simp only [b64encodeBytes, List.length_cons, ih]
      omega

/-- Length of a base64-encoded byte string as a Lean string. -/
theorem b64encode_length (l : List Nat) :
    (b64encode l).length = (l.length + 2) / 3 * 4 :=
  b64encodeBytes_length l

/-- Every slice produced by the frame splitter has exactly the frame size. -/
theorem splitFullFrames_mem_length (nsamp : Nat) (l : List Int) :
    ∀ c ∈ splitFullFrames nsamp l, c.length = nsamp := by
  induction l using splitFullFrames.induct nsamp with
  | case1 l h =>
      rw [splitFullFrames, dif_pos h]
      simp
  | case2 l h ih =>
      rw [splitFullFrames, dif_neg h]
      intro c hc
      rcases List.mem_cons.mp hc with hc | hc
      · subst hc
        simp only [List.length_take]
        omega
      · exact ih c hc
  
/-- The frame splitter emits exactly `⌊length / nsamp⌋` frames: the trailing
remainder shorter than one frame is dropped. -/
theorem splitFullFrames_count (nsamp : Nat) (l : List Int) (h : 0 < nsamp) :
    (splitFullFrames nsamp l).length = l.length / nsamp := by
  induction l using splitFullFrames.induct nsamp with
  | case1 l hl =>
      rw [splitFullFrames, dif_pos hl]
      rcases hl with hl | hl
      · simp [Nat.div_eq_of_lt hl]
      · omega
  | case2 l hl ih =>
      rw [splitFullFrames, dif_neg hl]
      simp only [List.length_cons, ih, List.length_drop]
      rw [Nat.div_eq l.length nsamp, if_pos ⟨h, by omega⟩]

/-- C1 (amended): every frame emitted by
`model_pcm16_to_twilio_ulaw_chunks` is exactly one full frame — 160 µ-law
bytes, a 216-character base64 payload — and a partial frame is never padded or
emitted short; the number of frames emitted is exactly
`⌊resampled length / 160⌋`, and the state carried to the next call is the
resampler filter state alone, so the trailing partial remainder is silently
discarded rather than held back. -/
theorem C1_outbound_frames_full_partial_discarded (b : AudioBridge) (pcm : List Int) :
    (∀ fr ∈ (model_pcm16_to_twilio_ulaw_chunks b pcm).1, fr.length = 216) ∧
    (model_pcm16_to_twilio_ulaw_chunks b pcm).1.length
      = (ratecv pcm MODEL_SR TWILIO_SR b.to_caller_state).1.length / 160 ∧
    (model_pcm16_to_twilio_ulaw_chunks b pcm).2
      = { b with
          to_caller_state := some (ratecv pcm MODEL_SR TWILIO_SR b.to_caller_state).2 } := by
  refine ⟨?_, ?_, rfl⟩
  · intro fr hfr
    simp only [model_pcm16_to_twilio_ulaw_chunks, List.mem_map] at hfr
    obtain ⟨chunk, hchunk, rfl⟩ := hfr
    have hlen := splitFullFrames_mem_length _ _ chunk hchunk
    have : (lin2ulaw chunk).length = 160 := by
      simp [lin2ulaw, hlen]
      rfl
    rw [b64encode_length, this]
  · simp only [model_pcm16_to_twilio_ulaw_chunks]
    rw [List.length_map, splitFullFrames_count _ _ (by decide)]
    rfl

set_option maxRecDepth 40000 in
/-- C1 counterexample: each of two calls contributes 80 resampled samples, so
after the second call the converter has seen a full frame's worth (160
samples); the claim says the partial frame held back by the first call is
emitted once the second call completes it, but the code emits nothing on
either call — the partial frame was silently discarded, not held back. -/
theorem C1_counterexample :
    (ratecv c1_in1 MODEL_SR TWILIO_SR AudioBridge.init.to_caller_state).1.length = 80 ∧
    (model_pcm16_to_twilio_ulaw_chunks AudioBridge.init c1_in1).1 = [] ∧
    (ratecv c1_in1 MODEL_SR TWILIO_SR c1_state1.to_caller_state).1.length = 80 ∧
    (model_pcm16_to_twilio_ulaw_chunks c1_state1 c1_in1).1 = [] := by
  have h1 : (ratecv c1_in1 MODEL_SR TWILIO_SR AudioBridge.init.to_caller_state).1.length
      = 80 := by decide
  have h2 : (ratecv c1_in1 MODEL_SR TWILIO_SR c1_state1.to_caller_state).1.length
      = 80 := by decide
  have e1 : (model_pcm16_to_twilio_ulaw_chunks AudioBridge.init c1_in1).1.length = 0 := by
    simp only [model_pcm16_to_twilio_ulaw_chunks, List.length_map]
    rw [splitFullFrames_count _ _ (by decide), h1]
    decide
  have e2 : (model_pcm16_to_twilio_ulaw_chunks c1_state1 c1_in1).1.length = 0 := by
    simp only [model_pcm16_to_twilio_ulaw_chunks, List.length_map]
    rw [splitFullFrames_count _ _ (by decide), h2]
    decide
  exact ⟨h1, List.length_eq_zero.mp e1, h2, List.length_eq_zero.mp e2⟩


/-- Cancelling one task never lets an exception out: a task that is `None` or
already done is skipped, and every await outcome of a cancelled task is caught
by the `except` clauses, leaving the task done. -/
theorem cancel_one_eq (t : Option TaskRef) (res : AwaitResult) :
    cancel_one t res = .ok (t.map (fun _ => ⟨true⟩)) := by
  cases t with
  | none => rfl
  | some tr =>
      cases tr with
      | mk d => cases d <;> cases res <;> rfl

/-- C9 (amended): `_cleanup_tasks` always returns normally (no exception
escapes, whatever the await and close outcomes are); after any invocation all
four background task slots hold no still-pending task; a second invocation
leaves the task slots unchanged; but `session.close()` is invoked once per
invocation while the session reference is set — the source never clears
`self.session`, so the close is not performed exactly once across repeated
invocations. -/
theorem C9_cleanup_total_but_close_repeats (s : CleanupState)
    (r1 r2 r3 r4 q1 q2 q3 q4 : AwaitResult) (c c2 : CloseResult) :
    cleanup_tasks s r1 r2 r3 r4 c = .ok (runCleanup s r1 r2 r3 r4 c) ∧
    taskSettled (runCleanup s r1 r2 r3 r4 c).realtime_session_task ∧
    taskSettled (runCleanup s r1 r2 r3 r4 c).message_loop_task ∧
    taskSettled (runCleanup s r1 r2 r3 r4 c).buffer_flush_task ∧
    taskSettled (runCleanup s r1 r2 r3 r4 c).keepalive_task ∧
    (runCleanup s r1 r2 r3 r4 c).session = s.session ∧
    (runCleanup s r1 r2 r3 r4 c).close_calls
      = s.close_calls + (if s.session then 1 else 0) ∧
    (runCleanup (runCleanup s r1 r2 r3 r4 c) q1 q2 q3 q4 c2).realtime_session_task
      = (runCleanup s r1 r2 r3 r4 c).realtime_session_task ∧
    (runCleanup (runCleanup s r1 r2 r3 r4 c) q1 q2 q3 q4 c2).close_calls
      = (runCleanup s r1 r2 r3 r4 c).close_calls + (if s.session then 1 else 0) := by
  have hrun : ∀ (st : CleanupState) (a1 a2 a3 a4 : AwaitResult) (cr : CloseResult),
      runCleanup st a1 a2 a3 a4 cr =
        { st with
            realtime_session_task := st.realtime_session_task.map (fun _ => ⟨true⟩)
            message_loop_task := st.message_loop_task.map (fun _ => ⟨true⟩)
            buffer_flush_task := st.buffer_flush_task.map (fun _ => ⟨true⟩)
            keepalive_task := st.keepalive_task.map (fun _ => ⟨true⟩)
            close_calls := st.close_calls + (if st.session then 1 else 0) } := by
    intro st a1 a2 a3 a4 cr
    rw [runCleanup, cleanup_tasks]
    simp only [cancel_one_eq, bind, Except.bind]
    by_cases hs : st.session = true
    · rcases cr <;> simp [hs]
    · simp only [Bool.not_eq_true] at hs
      simp [hs]
  have hok : ∀ (st : CleanupState) (a1 a2 a3 a4 : AwaitResult) (cr : CloseResult),
      cleanup_tasks st a1 a2 a3 a4 cr = .ok (runCleanup st a1 a2 a3 a4 cr) := by
    intro st a1 a2 a3 a4 cr
    rw [runCleanup]
    rcases h : cleanup_tasks st a1 a2 a3 a4 cr with e | st1
    · exfalso
      rw [cleanup_tasks] at h
      simp only [cancel_one_eq, bind, Except.bind] at h
      by_cases hs : st.session = true
      · rcases cr <;> simp [hs] at h
      · simp only [Bool.not_eq_true] at hs
        simp [hs] at h
    · rfl
  refine ⟨hok s r1 r2 r3 r4 c, ?_, ?_, ?_, ?_, ?_, ?_, ?_, ?_⟩ <;>
    simp only [hrun] <;> simp [taskSettled, Option.map_map, Function.comp_def]

/-- C9 counterexample: a started handler (four pending tasks, a session)
cleaned up twice: `session.close()` has then been invoked twice, not exactly
once across the repeated invocations. -/
theorem C9_counterexample :
    (runCleanup
        (runCleanup ⟨some ⟨false⟩, some ⟨false⟩, some ⟨false⟩, some ⟨false⟩, true, 0⟩
          .cancelled .cancelled .cancelled .cancelled .ok)
        .cancelled .cancelled .cancelled .cancelled .ok).close_calls = 2 := by
  decide


/-- Behaviour of the history scan: either nothing is sent and the state is
untouched, or exactly one not-yet-processed assistant item of the list is
chosen, its id is recorded in the processed set and exactly one mark is
allocated; and when every assistant item is already processed, nothing is
sent at all. -/
theorem hha_loop_spec (l : List HistoryItem) (s : THState) :
    (handle_history_audio_loop s l = (s, []) ∨
      ∃ item, item ∈ l ∧ item.role = "assistant" ∧
        item.item_id ∉ s.processed_audio_items ∧
        (handle_history_audio_loop s l).1.processed_audio_items
          = item.item_id :: s.processed_audio_items ∧
        (handle_history_audio_loop s l).1.mark_counter = s.mark_counter + 1) ∧
    ((∀ item ∈ l, item.role = "assistant" →
        item.item_id ∈ s.processed_audio_items) →
      handle_history_audio_loop s l = (s, [])) := by
  induction l with
  | nil => exact ⟨Or.inl rfl, fun _ => rfl⟩
  | cons item rest ih =>
      by_cases hrole : item.role = "assistant"
      · by_cases hproc : item.item_id ∈ s.processed_audio_items
        · have he : handle_history_audio_loop s (item :: rest)
              = handle_history_audio_loop s rest := by
            simp [handle_history_audio_loop, hrole, hproc]
          rw [he]
          refine ⟨?_, ?_⟩
          · rcases ih.1 with h1 | ⟨it, hmem, hr⟩
            · exact Or.inl h1
            · exact Or.inr ⟨it, by simp [hmem], hr⟩
          · intro hall
            exact ih.2 (fun it hm hi => hall it (by simp [hm]) hi)
        · rcases hfa : firstAudioContent item.content with _ | r
          · have he : handle_history_audio_loop s (item :: rest)
                = handle_history_audio_loop s rest := by
              simp [handle_history_audio_loop, hrole, hproc, hfa]
            rw [he]
            refine ⟨?_, ?_⟩
            · rcases ih.1 with h1 | ⟨it, hmem, hr⟩
              · exact Or.inl h1
              · exact Or.inr ⟨it, by simp [hmem], hr⟩
            · intro hall
              exact absurd (hall item (by simp) hrole) hproc
          · have he : handle_history_audio_loop s (item :: rest)
                = send_item_audio s item.item_id r.1 r.2 := by
              simp [handle_history_audio_loop, hrole, hproc, hfa]
            rw [he]
            refine ⟨Or.inr ⟨item, by simp, hrole, hproc, ?_, ?_⟩, ?_⟩
            · simp [send_item_audio]
            · simp [send_item_audio]
            · intro hall
              exact absurd (hall item (by simp) hrole) hproc
      · have he : handle_history_audio_loop s (item :: rest)
            = handle_history_audio_loop s rest := by
          simp [handle_history_audio_loop, hrole]
        rw [he]
        refine ⟨?_, ?_⟩
        · rcases ih.1 with h1 | ⟨it, hmem, hr⟩
          · exact Or.inl h1
          · exact Or.inr ⟨it, by simp [hmem], hr⟩
        · intro hall
          exact ih.2 (fun it hm hi => hall it (by simp [hm]) hi)

/-- C10: for every `history_updated` event, `_handle_history_audio` forwards
the audio of at most one assistant item — either it sends nothing and changes
nothing, or it picks exactly one assistant item whose id is not yet in
`_processed_audio_items`, records that id and allocates exactly one mark; an
item id already in the processed set is never chosen again; no other message
handler touches the processed set, which is cleared only by the reset in
`start()`. -/
theorem C10_history_audio_once (s : THState) (history : List HistoryItem)
    (p : String) (now mid : Nat) :
    (handle_history_audio s history = (s, []) ∨
      ∃ item, item ∈ history ∧ item.role = "assistant" ∧
        item.item_id ∉ s.processed_audio_items ∧
        (handle_history_audio s history).1.processed_audio_items
          = item.item_id :: s.processed_audio_items ∧
        (handle_history_audio s history).1.mark_counter = s.mark_counter + 1) ∧
    ((∀ item ∈ history, item.role = "assistant" →
        item.item_id ∈ s.processed_audio_items) →
      handle_history_audio s history = (s, [])) ∧
    (handle_media_event s p now).1.processed_audio_items = s.processed_audio_items ∧
    (handle_mark_event s mid).1.processed_audio_items = s.processed_audio_items ∧
    (start_clear_processed s).processed_audio_items = [] := by
  have h := hha_loop_spec history.reverse s
  refine ⟨?_, ?_, ?_, ?_, rfl⟩
  · simp only [handle_history_audio]
    rcases h.1 with h1 | ⟨item, hmem, hr⟩
    · exact Or.inl h1
    · exact Or.inr ⟨item, List.mem_reverse.mp hmem, hr⟩
  · intro hall
    simp only [handle_history_audio]
    exact h.2 (fun it hm hi => hall it (List.mem_reverse.mp hm) hi)
  · by_cases hp : p = ""
    · simp [handle_media_event, hp]
    · rcases hdec : b64decode p with _ | ub
      · simp [handle_media_event, hp, hdec]
      · simp only [handle_media_event, hdec]
        rw [if_neg hp]
        split
        · simp only [flush_audio_buffer]
          split
          · rfl
          · simp
        · simp
  · rcases hl : dictLookup s.mark_data mid with _ | t
    · simp [handle_mark_event, hl]
    · simp [handle_mark_event, hl]

end RealtimeTwilio
